import Mathlib

set_option maxHeartbeats 1000000
set_option maxRecDepth 100000
set_option linter.unusedVariables false

/-!
Verification development for the proposal-numbering and publication pipeline
in `src/github.ts` of the dao-proposal-monitor repository.  The TypeScript
class `GitHub` is embedded shallowly: its pure string manipulation becomes
Lean functions, its interaction with the GitHub REST API becomes explicit
state passing over a `RepoState`, and thrown JS exceptions become
`Except JsError`.
-/

/-- Proposal kind: the TypeScript union type `'executable' | 'social'`
(`github.ts` line 13). -/
inductive PType
  | executable
  | social
deriving DecidableEq, Repr

/-- String form of a proposal kind, as interpolated by `${type}` in the
front-matter template. -/
def PType.render : PType → String
  | .executable => "executable"
  | .social => "social"

/-- The `Proposal` record type (`github.ts` lines 8–14).  The field `id` has
TypeScript type `bigint | string` and is only ever used through string
interpolation (`${proposal.id}`), so it is modelled by its interpolated
string form. -/
structure Proposal where
  author : String
  id : String
  markdown : String
  title : Option String
  type : PType
deriving DecidableEq

/-- Boolean prefix test on character lists: models JS
`String.prototype.startsWith` applied to the underlying character
sequences. -/
def leadsWith : List Char → List Char → Bool
  | [], _ => true
  | _ :: _, [] => false
  | p :: ps, c :: cs => p == c && leadsWith ps cs

/-- Split `s` at the first occurrence of `pat`: returns the part before the
occurrence and the part after it, or `none` when `pat` does not occur.  This
is the search performed by JS `String.prototype.replace` with a string
pattern. -/
def splitOnce (pat : List Char) : List Char → Option (List Char × List Char)
  | [] => if pat.isEmpty then some ([], []) else none
  | c :: cs =>
    if leadsWith pat (c :: cs) then some ([], (c :: cs).drop pat.length)
    else
      match splitOnce pat cs with
      | some (pre, post) => some (c :: pre, post)
      | none => none

/-- Does `pat` occur as a contiguous substring of `s`? -/
def occursIn (pat s : List Char) : Bool :=
  (splitOnce pat s).isSome

/-- JS `s.replace(pat, repl)` with a string pattern: replaces only the first
occurrence; when the pattern does not occur, the string is returned
unchanged.  (JS also expands `$`-escapes inside `repl`; no replacement text
built by `formatFile` from the inputs considered here contains one, so the
expansion is the identity and is not modelled.) -/
def replaceFirst (s pat repl : String) : String :=
  match splitOnce pat.data s.data with
  | some (pre, post) => ⟨pre ++ repl.data ++ post⟩
  | none => s

/-- Metadata table inserted for executable proposals (template literal,
`github.ts` lines 155–159). -/
def metadataTableExecutable (id : String) : String :=
  "\n| **Status**            | Active                                                                                                  |\n| --------------------- | ------------------------------------------------------------------------------------------------------- |\n| **Discussion Thread** | [Forum](https://discuss.ens.domains/t/)                                                           |\n| **Votes**             | [Agora](https://agora.ensdao.org/proposals/" ++ id ++ "), [Tally](https://tally.ensdao.org/dao/proposal/" ++ id ++ ") |"

/-- Metadata table inserted for social proposals (template literal,
`github.ts` lines 161–165). -/
def metadataTableSocial (id : String) : String :=
  "\n| **Status**            | Active                                                      |\n| --------------------- | ----------------------------------------------------------- |\n| **Discussion Thread** | [Forum](https://discuss.ens.domains/t/)                     |\n| **Votes**             | [Snapshot](https://snapshot.box/#/s:ens.eth/proposal/" ++ id ++ ") |"

/-- The metadata table selected by the proposal kind (`github.ts`
lines 154–166). -/
def metadataTable (type : PType) (id : String) : String :=
  match type with
  | .executable => metadataTableExecutable id
  | .social => metadataTableSocial id

/-- The front-matter block prepended by `formatFile` (lines 172–179), up to
the point where the markdown body follows. -/
def frontMatter (p : Proposal) : String :=
  "---\nauthors:\n  - " ++ p.author ++ "\nproposal:\n  type: '" ++ p.type.render ++ "'\n---\n\n"

/-- The markdown document built by `formatFile` before the prettier step
(`github.ts` lines 150–179): when `title` is truthy (non-null and non-empty),
the first occurrence of the title inside the body is replaced by the
`[EP ep] title` heading followed by the authors block and the kind-specific
metadata table; then the front-matter block is prepended. -/
def buildMarkdown (p : Proposal) (ep : String) : String :=
  frontMatter p ++
    match p.title with
    | some t =>
      if t != "" then
        replaceFirst p.markdown t
          ("[EP " ++ ep ++ "] " ++ t ++ "\n\n::authors\n\n" ++ metadataTable p.type p.id ++ "\n")
      else p.markdown
    | none => p.markdown

/-- UTF-8 encoding of one Unicode scalar value.  `encodeURIComponent`
percent-encodes exactly these bytes, `unescape` turns each `%XX` back into a
single byte-valued character, and `btoa` base64-encodes that byte sequence;
so line 193 of the source encodes the UTF-8 bytes of the text. -/
def utf8EncodeChar (c : Nat) : List Nat :=
  if c < 0x80 then [c]
  else if c < 0x800 then [0xC0 + c / 0x40, 0x80 + c % 0x40]
  else if c < 0x10000 then
    [0xE0 + c / 0x1000, 0x80 + c / 0x40 % 0x40, 0x80 + c % 0x40]
  else
    [0xF0 + c / 0x40000, 0x80 + c / 0x1000 % 0x40, 0x80 + c / 0x40 % 0x40, 0x80 + c % 0x40]

/-- UTF-8 encoding of a sequence of Unicode scalar values. -/
def utf8Encode : List Nat → List Nat
  | [] => []
  | c :: cs => utf8EncodeChar c ++ utf8Encode cs

/-- UTF-8 decoding of one scalar value: reads one byte sequence produced by
`utf8EncodeChar` off the front of the list and returns the scalar value and
the remaining bytes. -/
def utf8DecodeChar : List Nat → Option (Nat × List Nat)
  | [] => none
  | b :: bs =>
    if b < 0x80 then some (b, bs)
    else if b < 0xC0 then none
    else if b < 0xE0 then
      match bs with
      | b1 :: bs1 =>
        if 0x80 ≤ b1 ∧ b1 < 0xC0 then some ((b - 0xC0) * 0x40 + (b1 - 0x80), bs1) else none
      | [] => none
    else if b < 0xF0 then
      match bs with
      | b1 :: b2 :: bs2 =>
        if (0x80 ≤ b1 ∧ b1 < 0xC0) ∧ (0x80 ≤ b2 ∧ b2 < 0xC0) then
          some ((b - 0xE0) * 0x1000 + (b1 - 0x80) * 0x40 + (b2 - 0x80), bs2)
        else none
      | _ => none
    else if b < 0xF8 then
      match bs with
      | b1 :: b2 :: b3 :: bs3 =>
        if ((0x80 ≤ b1 ∧ b1 < 0xC0) ∧ (0x80 ≤ b2 ∧ b2 < 0xC0)) ∧ (0x80 ≤ b3 ∧ b3 < 0xC0) then
          some ((b - 0xF0) * 0x40000 + (b1 - 0x80) * 0x1000 + (b2 - 0x80) * 0x40 + (b3 - 0x80), bs3)
        else none
      | _ => none
    else none

/-- UTF-8 decoding of a byte sequence, fuelled by an upper bound on the
number of scalar values (each decoded scalar consumes at least one byte, so
the byte count is always enough fuel). -/
def utf8DecodeFuel : Nat → List Nat → Option (List Nat)
  | 0, l => if l = [] then some [] else none
  | fuel + 1, l =>
    if l = [] then some []
    else
      match utf8DecodeChar l with
      | none => none
      | some cr => (utf8DecodeFuel fuel cr.2).map (cr.1 :: ·)

/-- UTF-8 decoding: reads back the byte sequences produced by
`utf8Encode`. -/
def utf8Decode (l : List Nat) : Option (List Nat) := utf8DecodeFuel l.length l

/-- The base64 digit alphabet used by `btoa`. -/
def b64Alphabet : List Char :=
  "ABCDEFGHIJKLMNOPQRSTUVWXYZabcdefghijklmnopqrstuvwxyz0123456789+/".data

/-- The base64 digit character for a six-bit value. -/
def sixToChar (n : Nat) : Char := b64Alphabet.getD n '='

/-- The six-bit value of a base64 digit character. -/
def charToSix (c : Char) : Option Nat := b64Alphabet.findIdx? (fun d => d == c)

/-- `btoa`: base64-encode a byte sequence, three bytes to four digits, with
`=` padding for a final one- or two-byte group. -/
def b64Encode : List Nat → List Char
  | [] => []
  | [b0] => [sixToChar (b0 / 4), sixToChar (b0 % 4 * 16), '=', '=']
  | [b0, b1] =>
    [sixToChar (b0 / 4), sixToChar (b0 % 4 * 16 + b1 / 16), sixToChar (b1 % 16 * 4), '=']
  | b0 :: b1 :: b2 :: rest =>
    sixToChar (b0 / 4) :: sixToChar (b0 % 4 * 16 + b1 / 16) ::
      sixToChar (b1 % 16 * 4 + b2 / 64) :: sixToChar (b2 % 64) :: b64Encode rest

/-- Base64 decoding of one four-digit chunk: three bytes for a full chunk,
two or one when `=`-padded. -/
def b64DecodeChunk (c0 c1 c2 c3 : Char) : Option (List Nat) :=
  match charToSix c0, charToSix c1 with
  | some s0, some s1 =>
    if c2 = '=' then
      if c3 = '=' then some [s0 * 4 + s1 / 16] else none
    else
      match charToSix c2 with
      | some s2 =>
        if c3 = '=' then some [s0 * 4 + s1 / 16, s1 % 16 * 16 + s2 / 4]
        else
          match charToSix c3 with
          | some s3 => some [s0 * 4 + s1 / 16, s1 % 16 * 16 + s2 / 4, s2 % 4 * 64 + s3]
          | none => none
      | none => none
  | _, _ => none

/-- Base64 decoding: reads back the digit sequences produced by `b64Encode`.
A chunk shorter than three bytes carries padding and must be final. -/
def b64Decode : List Char → Option (List Nat)
  | [] => some []
  | c0 :: c1 :: c2 :: c3 :: rest =>
    match b64DecodeChunk c0 c1 c2 c3 with
    | some bytes =>
      if bytes.length = 3 then (b64Decode rest).map (bytes ++ ·)
      else if rest = [] then some bytes else none
    | none => none
  | _ => none

/-- Line 193 of the source: `btoa(unescape(encodeURIComponent(text)))`, i.e.
base64 of the UTF-8 bytes of the text. -/
def encodeContent (s : String) : String :=
  ⟨b64Encode (utf8Encode (s.data.map Char.toNat))⟩

/-- The inverse transport decoding,
`decodeURIComponent(escape(atob(text)))`: base64-decode to bytes,
UTF-8-decode to scalar values, rebuild the string. -/
def decodeContent (s : String) : Option String :=
  match b64Decode s.data with
  | none => none
  | some bytes =>
    match utf8Decode bytes with
    | none => none
    | some cps => some ⟨cps.map Char.ofNat⟩

/-- `formatFile` (`github.ts` lines 149–195): build the markdown document,
apply the prettier formatting step, transport-encode the result.  The
prettier call is the external `prettier.format` library with fixed mdx
options; it is not part of this repository and is modelled as an abstract
text transformer `fmt`. -/
def formatFile (fmt : String → String) (p : Proposal) (ep : String) : String :=
  encodeContent (fmt (buildMarkdown p ep))

/-- The current-term computation of `assignNumber` (lines 114–117):
`Math.floor((currentYear - startingYear) / 1) + startingTerm` with
`startingYear = 2025` and `startingTerm = 6`.  The JS division is by 1, so
`Math.floor` of the exact quotient is integer floor division by 1. -/
def termOf (currentYear : Int) : Int :=
  Int.fdiv (currentYear - 2025) 1 + 6

/-- One JS exception, split the way the catch block of `createBranch` splits
it: a `RequestError` thrown by the octokit request layer, versus anything
else. -/
inductive JsError
  | request (msg : String)
  | other (msg : String)
deriving DecidableEq

/-- The behaviour of the external GitHub API during one run: the outcome of
the `getContent` listing call (`.error e` = the call throws `e`;
`.ok none` = the call returns non-array data; `.ok (some names)` = a
directory listing with those file names), the sha returned for
`heads/master`, and an optional fault injected into the `createRef` call (a
`RequestError` such as an auth failure, rate limit or server error, or a
non-request exception).  `getRef` is modelled as succeeding; no claim
exercises its failure. -/
structure Api where
  listing : Except JsError (Option (List String))
  masterSha : String
  createRefFault : Option JsError

/-- `assignNumber` (lines 113–146): compute the current term from the clock,
fetch the proposals directory listing, throw when it is not an array, count
the file names prefixed with `"{term}."` and return `"{term}.{next}"`, where
term 6 uses `count - 2` and every other term uses `count + 1`.  A thrown
exception is modelled by `Except.error`. -/
def assignNumber (api : Api) (currentYear : Int) : Except JsError String :=
  let currentTerm := termOf currentYear
  match api.listing with
  | .error e => .error e
  | .ok none => .error (.other "Proposals directory not found")
  | .ok (some names) =>
    let currentTermProposalCount :=
      (names.filter (fun n => leadsWith (toString currentTerm ++ ".").data n.data)).length
    let nextProposalNumber : Int :=
      if currentTerm = 6 then (currentTermProposalCount : Int) - 2
      else (currentTermProposalCount : Int) + 1
    .ok (toString currentTerm ++ "." ++ toString nextProposalNumber)

/-- A file committed by `createOrUpdateFileContents`. -/
structure FileCommit where
  branch : String
  path : String
  message : String
  content : String
deriving DecidableEq

/-- A pull request opened by `pulls.create`. -/
structure PullRequest where
  owner : String
  repo : String
  title : String
  head : String
  base : String
  body : String
  maintainerCanModify : Bool
deriving DecidableEq

/-- The externally visible repository state touched by one run: branches on
the fork, committed files, opened pull requests. -/
structure RepoState where
  branches : List String
  files : List FileCommit
  prs : List PullRequest
deriving DecidableEq

/-- Repository coordinates from the constructor (lines 25–46): the fork
`owner/repo` and the upstream `upstreamOwner/upstreamRepo` (redirected to the
fork in dev mode). -/
structure Config where
  owner : String
  repo : String
  upstreamOwner : String
  upstreamRepo : String

/-- The `git.createRef` call: an injected fault makes it throw; otherwise it
throws a conflict `RequestError` when the ref already exists, and creates the
branch when it does not. -/
def createRef (api : Api) (st : RepoState) (branch : String) :
    Except JsError RepoState :=
  match api.createRefFault with
  | some e => .error e
  | none =>
    if branch ∈ st.branches then .error (.request "Reference already exists")
    else .ok { st with branches := branch :: st.branches }

/-- `createBranch` (lines 61–83): read `heads/master`, try `createRef`, catch
`RequestError` (log it and return null), rethrow anything else.  Returns the
created ref (`some sha`) or null (`none`), paired with the resulting
repository state. -/
def createBranch (api : Api) (st : RepoState) (branch : String) :
    Except JsError (Option String) × RepoState :=
  match createRef api st branch with
  | .ok st' => (.ok (some api.masterSha), st')
  | .error (.request _) => (.ok none, st)
  | .error (.other m) => (.error (.other m), st)

/-- `createFile` (lines 86–97): commit the formatted proposal file on the
branch, at a path derived from the assigned EP number. -/
def createFile (cfg : Config) (fmt : String → String) (st : RepoState)
    (branch ep : String) (p : Proposal) : RepoState :=
  { st with
    files := { branch := branch
               path := "src/pages/dao/proposals/" ++ ep ++ ".mdx"
               message := "Add EP " ++ ep
               content := formatFile fmt p ep } :: st.files }

/-- `openPullRequest` (lines 100–110): open a pull request from the fork
branch against the upstream master branch. -/
def openPullRequest (cfg : Config) (st : RepoState) (branch ep : String) :
    RepoState :=
  { st with
    prs := { owner := cfg.upstreamOwner
             repo := cfg.upstreamRepo
             title := "Add EP " ++ ep
             head := cfg.owner ++ ":" ++ branch
             base := "master"
             body := "This is an automated pull request to add a new DAO proposal to the ENS docs."
             maintainerCanModify := true } :: st.prs }

/-- `addProposal` (lines 48–58): assign the EP number, create the branch
`prop/{id}`; only when a fresh branch was created (`createdBranch`
non-null) commit the file and open the pull request.  The returned pair is
the outcome (`.error e` models an exception escaping `addProposal`) and the
final repository state. -/
def addProposal (cfg : Config) (api : Api) (fmt : String → String)
    (currentYear : Int) (p : Proposal) (st : RepoState) :
    Except JsError Unit × RepoState :=
  let branch := "prop/" ++ p.id
  match assignNumber api currentYear with
  | .error e => (.error e, st)
  | .ok ep =>
    match createBranch api st branch with
    | (.error e, st') => (.error e, st')
    | (.ok none, st') => (.ok (), st')
    | (.ok (some _), st') =>
      (.ok (), openPullRequest cfg (createFile cfg fmt st' branch ep p) branch ep)

/-- The spec's `count`: the number of names in the listing that start with
the prefix `"{term}."`.  This is the quantity `assignNumber` filters for. -/
def countPrefixed (t : Int) (names : List String) : Nat :=
  (names.filter (fun n => leadsWith (toString t ++ ".").data n.data)).length

/-- The social proposal of the spec's end-to-end scenario 1. -/
def p42 : Proposal :=
  { author := "alice.eth", id := "42", markdown := "# Fund X\n\nDetails...",
    title := some "Fund X", type := .social }

/-- A concrete proposal whose title does not occur verbatim in its body. -/
def sampleNoMatch : Proposal :=
  { author := "a", id := "1", markdown := "hello", title := some "Z", type := .social }

/-- Concrete repository coordinates for scenarios. -/
def cfgSample : Config :=
  { owner := "me", repo := "docs", upstreamOwner := "ensdomains", upstreamRepo := "docs" }

/-- A healthy API: the listing contains two term-7 proposals, branch creation
works. -/
def apiSample : Api :=
  { listing := .ok (some ["7.1.mdx", "7.2.mdx"]), masterSha := "sha0", createRefFault := none }

/-- An API whose listing fetch throws a network `RequestError`. -/
def apiDown : Api :=
  { listing := .error (.request "network error"), masterSha := "sha0", createRefFault := none }

/-- An API whose `createRef` call fails with an authentication
`RequestError` even though no branch exists. -/
def apiFaulty : Api :=
  { listing := .ok (some ["7.1.mdx", "7.2.mdx"]), masterSha := "sha0",
    createRefFault := some (.request "Bad credentials") }

/-- The repository state before any run. -/
def emptyRepo : RepoState := { branches := [], files := [], prs := [] }

/-- Claim C4's end-to-end scenario, stated over an arbitrary prettier step
`fmt` (the external formatter the pipeline pipes the document through): with
the current year 2026 the term computes to 7; with the listing
`["7.1.mdx", "7.2.mdx"]` the assigned number is `"7.3"`; the built document
carries the `[EP 7.3] Fund X` heading, front-matter authors `alice.eth` and
`proposal.type: 'social'`; and one run creates branch `prop/42`, commits the
encoded file at `src/pages/dao/proposals/7.3.mdx` and opens a pull request
titled `Add EP 7.3`. -/
def EndToEndFundX (fmt : String → String) : Prop :=
  termOf 2026 = 7 ∧
  assignNumber apiSample 2026 = .ok "7.3" ∧
  buildMarkdown p42 "7.3" =
    "---\nauthors:\n  - alice.eth\nproposal:\n  type: 'social'\n---\n\n# [EP 7.3] Fund X\n\n::authors\n\n"
      ++ metadataTableSocial "42" ++ "\n\n\nDetails..." ∧
  addProposal cfgSample apiSample fmt 2026 p42 emptyRepo =
    (.ok (),
     { branches := ["prop/42"],
       files := [{ branch := "prop/42", path := "src/pages/dao/proposals/7.3.mdx",
                   message := "Add EP 7.3", content := formatFile fmt p42 "7.3" }],
       prs := [{ owner := "ensdomains", repo := "docs", title := "Add EP 7.3",
                 head := "me:prop/42", base := "master",
                 body := "This is an automated pull request to add a new DAO proposal to the ENS docs.",
                 maintainerCanModify := true }] })

/-- Floor division of an integer by 1 is the identity. -/
theorem fdiv_by_one (n : Int) : Int.fdiv n 1 = n := by
  rcases n with (_ | m) | m <;> simp [Int.fdiv, Nat.div_one]

/-- `leadsWith` agrees with the list prefix order. -/
theorem leadsWith_iff (p l : List Char) : leadsWith p l = true ↔ p <+: l := by
  induction p generalizing l with
  | nil => simp [leadsWith]
  | cons a ps ih =>
    cases l with
    | nil => simp [leadsWith]
    | cons b bs => simp [leadsWith, ih, List.cons_prefix_cons]

/-- The empty pattern occurs in every string. -/
theorem occursIn_nil (l : List Char) : occursIn [] l = true := by
  cases l <;> simp [occursIn, splitOnce, leadsWith]

/-- Searching a cons either matches at the front or recurses. -/
theorem occursIn_cons (pat : List Char) (c : Char) (cs : List Char) :
    occursIn pat (c :: cs) = (leadsWith pat (c :: cs) || occursIn pat cs) := by
  unfold occursIn
  simp only [splitOnce]
  by_cases h : leadsWith pat (c :: cs) = true
  · rw [h]
    simp
  · rw [Bool.not_eq_true] at h
    rw [h]
    simp only [Bool.false_eq_true, if_false, Bool.false_or]
    cases hs : splitOnce pat cs with
    | none => rfl
    | some pr => cases pr; rfl

/-- `occursIn` means exactly contiguous-substring occurrence: `pat` occurs in
`s` precisely when `s` splits as `pre ++ pat ++ post`. -/
theorem occursIn_iff_parts (pat s : List Char) :
    occursIn pat s = true ↔ ∃ pre post, s = pre ++ (pat ++ post) := by
  induction s with
  | nil =>
    cases pat with
    | nil => exact ⟨fun _ => ⟨[], [], rfl⟩, fun _ => rfl⟩
    | cons c cs =>
      constructor
      · intro h
        exact absurd h (by simp [occursIn, splitOnce, leadsWith])
      · rintro ⟨pre, post, h⟩
        exact absurd h (by simp)
  | cons c cs ih =>
    rw [occursIn_cons, Bool.or_eq_true]
    constructor
    · intro h
      rcases h with h1 | h2
      · obtain ⟨t, ht⟩ := (leadsWith_iff pat (c :: cs)).mp h1
        exact ⟨[], t, by rw [← ht]; rfl⟩
      · obtain ⟨pre, post, hp⟩ := ih.mp h2
        exact ⟨c :: pre, post, by rw [hp]; rfl⟩
    · rintro ⟨pre, post, hp⟩
      cases pre with
      | nil =>
        refine Or.inl ((leadsWith_iff pat (c :: cs)).mpr ?_)
        exact ⟨post, hp.symm⟩
      | cons a pre₁ =>
        rw [List.cons_append] at hp
        injection hp with hx hy
        exact Or.inr (ih.mpr ⟨pre₁, post, hy⟩)

/-- When the pattern does not occur, the JS `replace` is a no-op. -/
theorem replaceFirst_no_occur (s pat repl : String)
    (h : occursIn pat.data s.data = false) : replaceFirst s pat repl = s := by
  unfold occursIn at h
  unfold replaceFirst
  cases hs : splitOnce pat.data s.data with
  | none => rfl
  | some pr => rw [hs] at h; simp at h

/-- `toString` of a natural number cast to `Int` and incremented agrees with
`toString` of the natural successor. -/
theorem intToString_succ (n : Nat) : toString ((n : Int) + 1) = toString (n + 1) := by
  have h : ((n : Int) + 1) = ((n + 1 : Nat) : Int) := by push_cast; ring
  rw [h]
  rfl

/-- A healthy `createBranch` on a fresh branch name creates the branch and
returns the non-null created ref. -/
theorem createBranch_fresh (api : Api) (st : RepoState) (branch : String)
    (hf : api.createRefFault = none) (hm : branch ∉ st.branches) :
    createBranch api st branch =
      (.ok (some api.masterSha), { st with branches := branch :: st.branches }) := by
  unfold createBranch createRef
  rw [hf, if_neg hm]

/-- A healthy `createBranch` on an existing branch name hits the conflict
`RequestError`, which the catch block turns into a null result; the state is
unchanged. -/
theorem createBranch_existing (api : Api) (st : RepoState) (branch : String)
    (hf : api.createRefFault = none) (hm : branch ∈ st.branches) :
    createBranch api st branch = (.ok none, st) := by
  unfold createBranch createRef
  rw [hf, if_pos hm]

/-- When the listing succeeds, `assignNumber` returns some EP string. -/
theorem assignNumber_isOk (api : Api) (year : Int) (names : List String)
    (hl : api.listing = .ok (some names)) :
    ∃ ep, assignNumber api year = .ok ep := by
  unfold assignNumber
  rw [hl]
  exact ⟨_, rfl⟩

/-- Claim C9: the computed governance term is `referenceTerm + floor(currentYear
- referenceYear)` with reference year 2025 and reference term 6, a pure total
function of the clock, monotonically non-decreasing as the year advances. -/
theorem termOf_closed_form_and_monotone :
    (∀ y : Int, termOf y = 6 + (y - 2025)) ∧
    (∀ y₁ y₂ : Int, y₁ ≤ y₂ → termOf y₁ ≤ termOf y₂) := by
  have h : ∀ y : Int, termOf y = 6 + (y - 2025) := fun y => by
    unfold termOf
    rw [fdiv_by_one]
    ring
  refine ⟨h, fun y₁ y₂ hle => ?_⟩
  rw [h y₁, h y₂]
  omega

/-- Witness for C9 at a concrete pair of years. -/
theorem termOf_closed_form_and_monotone_witness : termOf 2025 ≤ termOf 2026 :=
  termOf_closed_form_and_monotone.2 2025 2026 (by decide)

/-- Claim C2: for every term other than 6 and every listing, `assignNumber`
returns `"{term}.{n+1}"` where `n` is the number of listed file names that
start with the prefix `"{term}."`. -/
theorem assignNumber_general_case (api : Api) (year : Int) (names : List String)
    (hl : api.listing = .ok (some names)) (ht : termOf year ≠ 6) :
    assignNumber api year =
      .ok (toString (termOf year) ++ "." ++ toString (countPrefixed (termOf year) names + 1)) := by
  unfold assignNumber
  rw [hl]
  simp only [if_neg ht]
  rw [intToString_succ]
  rfl

/-- Witness for C2: term 7 (year 2026) with two existing term-7 files. -/
theorem assignNumber_general_case_witness :
    assignNumber { listing := .ok (some ["7.1.mdx", "7.2.mdx", "6.1.mdx"]),
                   masterSha := "s", createRefFault := none } 2026 =
      .ok (toString (termOf 2026) ++ "." ++
        toString (countPrefixed (termOf 2026) ["7.1.mdx", "7.2.mdx", "6.1.mdx"] + 1)) :=
  assignNumber_general_case _ 2026 _ rfl (by decide)

/-- Claim C3: for the historical-exception term 6, `assignNumber` returns
`"6."` followed by the count of names prefixed `"6."` minus 2. -/
theorem assignNumber_term_six (api : Api) (year : Int) (names : List String)
    (hl : api.listing = .ok (some names)) (ht : termOf year = 6) :
    assignNumber api year =
      .ok ("6." ++ toString ((countPrefixed 6 names : Int) - 2)) := by
  unfold assignNumber
  rw [hl, ht]
  simp only [if_pos rfl]
  rfl

/-- Witness for C3: year 2025 computes term 6; five `6.`-prefixed names give
ordinal 3. -/
theorem assignNumber_term_six_witness :
    assignNumber { listing := .ok (some ["6.1.mdx", "6.2.mdx", "6.3.mdx", "6.6.1.mdx", "6.6.2.mdx"]),
                   masterSha := "s", createRefFault := none } 2025 =
      .ok ("6." ++ toString ((countPrefixed 6 ["6.1.mdx", "6.2.mdx", "6.3.mdx", "6.6.1.mdx", "6.6.2.mdx"] : Int) - 2)) :=
  assignNumber_term_six _ 2025 _ rfl (by decide)

/-- Claim C6: when the (non-null, non-empty under JS truthiness) title does
not occur verbatim in the body, the title replacement is a no-op and the
built document is exactly the front-matter block prepended to the unmodified
body; the encoded, formatted output is that of the front-matter-prepended
body, with no metadata table injected. -/
theorem formatFile_title_not_found (fmt : String → String) (p : Proposal)
    (t : String) (ep : String) (hti : p.title = some t)
    (hocc : occursIn t.data p.markdown.data = false) :
    buildMarkdown p ep = frontMatter p ++ p.markdown ∧
    formatFile fmt p ep = encodeContent (fmt (frontMatter p ++ p.markdown)) := by
  have hne : t ≠ "" := by
    intro h0
    rw [h0] at hocc
    rw [show ("" : String).data = [] from rfl, occursIn_nil] at hocc
    exact Bool.noConfusion hocc
  have hbne : (t != "") = true := by simp [bne, hne]
  have hb : buildMarkdown p ep = frontMatter p ++ p.markdown := by
    unfold buildMarkdown
    rw [hti]
    simp only [hbne, if_true]
    rw [replaceFirst_no_occur _ _ _ hocc]
  exact ⟨hb, by unfold formatFile; rw [hb]⟩

/-- Witness for C6: title `Z` absent from body `hello`. -/
theorem formatFile_title_not_found_witness :
    buildMarkdown sampleNoMatch "1.1" = frontMatter sampleNoMatch ++ "hello" ∧
    formatFile id sampleNoMatch "1.1" =
      encodeContent (id (frontMatter sampleNoMatch ++ "hello")) :=
  formatFile_title_not_found id sampleNoMatch "Z" "1.1" rfl (by decide)

/-- Claim C4: the end-to-end scenario holds for every formatting step. -/
theorem addProposal_end_to_end (fmt : String → String) : EndToEndFundX fmt :=
  ⟨rfl, rfl, rfl, rfl⟩

/-- Witness for C4 at the identity formatting step. -/
theorem addProposal_end_to_end_witness : EndToEndFundX id :=
  addProposal_end_to_end id

/-- Claim C1: idempotent publication.  When the listing succeeds, branch
creation is healthy and the branch `prop/{id}` does not yet exist, the first
`addProposal` call completes and creates the branch, one file and one pull
request; on a second call the branch already exists, `createBranch` returns
null, and the call completes as a no-op: no state change, no new file, no new
pull request, so both calls together produce exactly one branch and one pull
request. -/
theorem addProposal_idempotent (cfg : Config) (api : Api) (fmt : String → String)
    (year : Int) (p : Proposal) (st : RepoState) (names : List String)
    (hl : api.listing = .ok (some names))
    (hf : api.createRefFault = none)
    (hb : ("prop/" ++ p.id) ∉ st.branches) :
    ∃ st₁ : RepoState,
      addProposal cfg api fmt year p st = (.ok (), st₁) ∧
      createBranch api st₁ ("prop/" ++ p.id) = (.ok none, st₁) ∧
      addProposal cfg api fmt year p st₁ = (.ok (), st₁) ∧
      st₁.branches.count ("prop/" ++ p.id) = 1 ∧
      st₁.files.length = st.files.length + 1 ∧
      st₁.prs.length = st.prs.length + 1 := by
  obtain ⟨ep, hep⟩ := assignNumber_isOk api year names hl
  have hcb1 := createBranch_fresh api st ("prop/" ++ p.id) hf hb
  refine ⟨openPullRequest cfg
      (createFile cfg fmt { st with branches := ("prop/" ++ p.id) :: st.branches }
        ("prop/" ++ p.id) ep p) ("prop/" ++ p.id) ep, ?_, ?_, ?_, ?_, ?_, ?_⟩
  · simp only [addProposal, hep, hcb1]
  · exact createBranch_existing api _ _ hf (List.mem_cons_self _ _)
  · have hcb2 : createBranch api
        (openPullRequest cfg
          (createFile cfg fmt { st with branches := ("prop/" ++ p.id) :: st.branches }
            ("prop/" ++ p.id) ep p) ("prop/" ++ p.id) ep) ("prop/" ++ p.id) =
        (.ok none,
         openPullRequest cfg
          (createFile cfg fmt { st with branches := ("prop/" ++ p.id) :: st.branches }
            ("prop/" ++ p.id) ep p) ("prop/" ++ p.id) ep) :=
      createBranch_existing api _ _ hf (List.mem_cons_self _ _)
    simp only [addProposal, hep, hcb2]
  · show (("prop/" ++ p.id) :: st.branches).count ("prop/" ++ p.id) = 1
    rw [List.count_cons_self, List.count_eq_zero.mpr hb]
  · rfl
  · rfl

/-- Witness for C1: publishing `p42` twice into an empty repository. -/
theorem addProposal_idempotent_witness :
    ∃ st₁ : RepoState,
      addProposal cfgSample apiSample id 2026 p42 emptyRepo = (.ok (), st₁) ∧
      createBranch apiSample st₁ ("prop/" ++ p42.id) = (.ok none, st₁) ∧
      addProposal cfgSample apiSample id 2026 p42 st₁ = (.ok (), st₁) ∧
      st₁.branches.count ("prop/" ++ p42.id) = 1 ∧
      st₁.files.length = emptyRepo.files.length + 1 ∧
      st₁.prs.length = emptyRepo.prs.length + 1 :=
  addProposal_idempotent cfgSample apiSample id 2026 p42 emptyRepo
    ["7.1.mdx", "7.2.mdx"] rfl rfl (by decide)

/-- Claim C5: number-assignment failure is atomic.  When the listing call
throws, or returns data that is not a directory listing, `assignNumber` fails
and the error propagates out of `addProposal` with the repository state
untouched: no branch, no file, no pull request. -/
theorem assignNumber_failure_atomic (cfg : Config) (api : Api)
    (fmt : String → String) (year : Int) (p : Proposal) (st : RepoState)
    (e : JsError) :
    (api.listing = .error e →
      assignNumber api year = .error e ∧
      addProposal cfg api fmt year p st = (.error e, st)) ∧
    (api.listing = .ok none →
      assignNumber api year = .error (.other "Proposals directory not found") ∧
      addProposal cfg api fmt year p st =
        (.error (.other "Proposals directory not found"), st)) := by
  constructor
  · intro h
    have ha : assignNumber api year = .error e := by
      unfold assignNumber
      rw [h]
    exact ⟨ha, by simp only [addProposal, ha]⟩
  · intro h
    have ha : assignNumber api year = .error (.other "Proposals directory not found") := by
      unfold assignNumber
      rw [h]
    exact ⟨ha, by simp only [addProposal, ha]⟩

/-- Witness for C5: a listing fetch that throws a network error aborts the
run with the empty repository untouched. -/
theorem assignNumber_failure_atomic_witness :
    assignNumber apiDown 2026 = .error (.request "network error") ∧
    addProposal cfgSample apiDown id 2026 p42 emptyRepo =
      (.error (.request "network error"), emptyRepo) :=
  (assignNumber_failure_atomic cfgSample apiDown id 2026 p42 emptyRepo
    (.request "network error")).1 rfl

/-- Claim C10: `createBranch` returns null for every `RequestError` raised by
the ref-creation call, whatever its cause; `addProposal` then completes
without throwing and without committing a file or opening a pull request —
exactly the already-exists no-op — even when the branch did not exist. -/
theorem createBranch_swallows_request_errors (cfg : Config) (api : Api)
    (fmt : String → String) (year : Int) (p : Proposal) (st : RepoState)
    (names : List String) (msg : String)
    (hl : api.listing = .ok (some names))
    (hf : api.createRefFault = some (.request msg)) :
    createBranch api st ("prop/" ++ p.id) = (.ok none, st) ∧
    addProposal cfg api fmt year p st = (.ok (), st) := by
  obtain ⟨ep, hep⟩ := assignNumber_isOk api year names hl
  have hcr : createRef api st ("prop/" ++ p.id) = .error (.request msg) := by
    unfold createRef
    rw [hf]
  have hcb : createBranch api st ("prop/" ++ p.id) = (.ok none, st) := by
    unfold createBranch
    rw [hcr]
  exact ⟨hcb, by simp only [addProposal, hep, hcb]⟩

/-- Witness for C10: an authentication failure during ref creation on an
empty repository is swallowed and the run is a silent no-op. -/
theorem createBranch_swallows_request_errors_witness :
    createBranch apiFaulty emptyRepo ("prop/" ++ p42.id) = (.ok none, emptyRepo) ∧
    addProposal cfgSample apiFaulty id 2026 p42 emptyRepo = (.ok (), emptyRepo) :=
  createBranch_swallows_request_errors cfgSample apiFaulty id 2026 p42 emptyRepo
    ["7.1.mdx", "7.2.mdx"] "Bad credentials" rfl rfl

/-- `utf8EncodeChar` never returns an empty byte sequence. -/
theorem utf8EncodeChar_ne_nil (c : Nat) : utf8EncodeChar c ≠ [] := by
  unfold utf8EncodeChar
  split_ifs <;> simp

/-- Reading one scalar value back off an encoded character recovers it
together with the untouched rest of the bytes. -/
theorem utf8DecodeChar_enc (c : Nat) (hc : c < 0x110000) (rest : List Nat) :
    utf8DecodeChar (utf8EncodeChar c ++ rest) = some (c, rest) := by
  unfold utf8EncodeChar
  by_cases h1 : c < 0x80
  · rw [if_pos h1]
    simp only [List.cons_append, List.nil_append]
    unfold utf8DecodeChar
    dsimp only
    rw [if_pos h1]
  · rw [if_neg h1]
    by_cases h2 : c < 0x800
    · rw [if_pos h2]
      simp only [List.cons_append, List.nil_append]
      unfold utf8DecodeChar
      dsimp only
      rw [if_neg (by omega), if_neg (by omega), if_pos (by omega), if_pos (by omega),
        show (0xC0 + c / 0x40 - 0xC0) * 0x40 + (0x80 + c % 0x40 - 0x80) = c from by omega]
    · rw [if_neg h2]
      by_cases h3 : c < 0x10000
      · rw [if_pos h3]
        simp only [List.cons_append, List.nil_append]
        unfold utf8DecodeChar
        dsimp only
        rw [if_neg (by omega), if_neg (by omega), if_neg (by omega), if_pos (by omega),
          if_pos (by omega),
          show (0xE0 + c / 0x1000 - 0xE0) * 0x1000 + (0x80 + c / 0x40 % 0x40 - 0x80) * 0x40 +
            (0x80 + c % 0x40 - 0x80) = c from by omega]
      · rw [if_neg h3]
        simp only [List.cons_append, List.nil_append]
        unfold utf8DecodeChar
        dsimp only
        rw [if_neg (by omega), if_neg (by omega), if_neg (by omega), if_neg (by omega),
          if_pos (by omega), if_pos (by omega),
          show (0xF0 + c / 0x40000 - 0xF0) * 0x40000 + (0x80 + c / 0x1000 % 0x40 - 0x80) * 0x1000 +
            (0x80 + c / 0x40 % 0x40 - 0x80) * 0x40 + (0x80 + c % 0x40 - 0x80) = c from by omega]

/-- With enough fuel, decoding an encoded scalar sequence recovers it. -/
theorem utf8DecodeFuel_encode (fuel : Nat) :
    ∀ cps : List Nat, cps.length ≤ fuel → (∀ c ∈ cps, c < 0x110000) →
      utf8DecodeFuel fuel (utf8Encode cps) = some cps := by
  induction fuel with
  | zero =>
    intro cps hle _
    have h0 : cps = [] := List.eq_nil_of_length_eq_zero (by omega)
    subst h0
    rfl
  | succ n ih =>
    intro cps hle h
    cases cps with
    | nil => rfl
    | cons c cs =>
      have hne : utf8Encode (c :: cs) ≠ [] := by
        show utf8EncodeChar c ++ utf8Encode cs ≠ []
        simp [utf8EncodeChar_ne_nil c]
      unfold utf8DecodeFuel
      rw [if_neg hne]
      rw [show utf8Encode (c :: cs) = utf8EncodeChar c ++ utf8Encode cs from rfl]
      rw [utf8DecodeChar_enc c (h c (List.mem_cons_self c cs)) (utf8Encode cs)]
      dsimp only
      rw [ih cs (by simpa using Nat.le_of_succ_le_succ (by simpa using hle))
        (fun x hx => h x (List.mem_cons_of_mem c hx))]
      rfl

/-- A scalar sequence is never longer than its UTF-8 byte encoding. -/
theorem utf8Encode_length_ge (cps : List Nat) : cps.length ≤ (utf8Encode cps).length := by
  induction cps with
  | nil => simp [utf8Encode]
  | cons c cs ih =>
    show cs.length + 1 ≤ (utf8EncodeChar c ++ utf8Encode cs).length
    rw [List.length_append]
    have h1 : 1 ≤ (utf8EncodeChar c).length := by
      cases he : utf8EncodeChar c with
      | nil => exact absurd he (utf8EncodeChar_ne_nil c)
      | cons x xs => simp
    omega

/-- UTF-8 decoding is a left inverse of UTF-8 encoding on sequences of
Unicode scalar values. -/
theorem utf8Decode_encode (cps : List Nat) (h : ∀ c ∈ cps, c < 0x110000) :
    utf8Decode (utf8Encode cps) = some cps :=
  utf8DecodeFuel_encode (utf8Encode cps).length cps (utf8Encode_length_ge cps) h

/-- Every byte of an encoded scalar value fits in eight bits. -/
theorem utf8EncodeChar_bytes_lt (c : Nat) (hc : c < 0x110000) (b : Nat)
    (hb : b ∈ utf8EncodeChar c) : b < 256 := by
  unfold utf8EncodeChar at hb
  split_ifs at hb with h1 h2 h3
  · simp only [List.mem_singleton] at hb
    omega
  · simp only [List.mem_cons, List.not_mem_nil, or_false] at hb
    rcases hb with rfl | rfl <;> omega
  · simp only [List.mem_cons, List.not_mem_nil, or_false] at hb
    rcases hb with rfl | rfl | rfl <;> omega
  · simp only [List.mem_cons, List.not_mem_nil, or_false] at hb
    rcases hb with rfl | rfl | rfl | rfl <;> omega

/-- Every byte of an encoded scalar sequence fits in eight bits. -/
theorem utf8Encode_bytes_lt (cps : List Nat) (h : ∀ c ∈ cps, c < 0x110000) :
    ∀ b ∈ utf8Encode cps, b < 256 := by
  induction cps with
  | nil => intro b hb; simp [utf8Encode] at hb
  | cons c cs ih =>
    intro b hb
    rw [show utf8Encode (c :: cs) = utf8EncodeChar c ++ utf8Encode cs from rfl] at hb
    rcases List.mem_append.mp hb with hb1 | hb2
    · exact utf8EncodeChar_bytes_lt c (h c (List.mem_cons_self c cs)) b hb1
    · exact ih (fun x hx => h x (List.mem_cons_of_mem c hx)) b hb2

/-- Looking a base64 digit character back up recovers its six-bit value. -/
theorem charToSix_sixToChar : ∀ n < 64, charToSix (sixToChar n) = some n := by decide

/-- No base64 digit character is the padding character. -/
theorem sixToChar_ne_pad : ∀ n < 64, sixToChar n ≠ '=' := by decide

/-- Decoding a double-padded chunk recovers its single byte. -/
theorem b64DecodeChunk_one (b0 : Nat) (h0 : b0 < 256) :
    b64DecodeChunk (sixToChar (b0 / 4)) (sixToChar (b0 % 4 * 16)) '=' '=' = some [b0] := by
  unfold b64DecodeChunk
  rw [charToSix_sixToChar (b0 / 4) (by omega), charToSix_sixToChar (b0 % 4 * 16) (by omega)]
  dsimp only
  rw [if_pos rfl, if_pos rfl, show b0 / 4 * 4 + b0 % 4 * 16 / 16 = b0 from by omega]

/-- Decoding a single-padded chunk recovers its two bytes. -/
theorem b64DecodeChunk_two (b0 b1 : Nat) (h0 : b0 < 256) (h1 : b1 < 256) :
    b64DecodeChunk (sixToChar (b0 / 4)) (sixToChar (b0 % 4 * 16 + b1 / 16))
      (sixToChar (b1 % 16 * 4)) '=' = some [b0, b1] := by
  unfold b64DecodeChunk
  rw [charToSix_sixToChar (b0 / 4) (by omega),
    charToSix_sixToChar (b0 % 4 * 16 + b1 / 16) (by omega)]
  dsimp only
  rw [if_neg (sixToChar_ne_pad (b1 % 16 * 4) (by omega))]
  rw [charToSix_sixToChar (b1 % 16 * 4) (by omega)]
  dsimp only
  rw [if_pos rfl]
  rw [show b0 / 4 * 4 + (b0 % 4 * 16 + b1 / 16) / 16 = b0 from by omega,
    show (b0 % 4 * 16 + b1 / 16) % 16 * 16 + b1 % 16 * 4 / 4 = b1 from by omega]

/-- Decoding an unpadded chunk recovers its three bytes. -/
theorem b64DecodeChunk_three (b0 b1 b2 : Nat) (h0 : b0 < 256) (h1 : b1 < 256)
    (h2 : b2 < 256) :
    b64DecodeChunk (sixToChar (b0 / 4)) (sixToChar (b0 % 4 * 16 + b1 / 16))
      (sixToChar (b1 % 16 * 4 + b2 / 64)) (sixToChar (b2 % 64)) = some [b0, b1, b2] := by
  unfold b64DecodeChunk
  rw [charToSix_sixToChar (b0 / 4) (by omega),
    charToSix_sixToChar (b0 % 4 * 16 + b1 / 16) (by omega)]
  dsimp only
  rw [if_neg (sixToChar_ne_pad (b1 % 16 * 4 + b2 / 64) (by omega))]
  rw [charToSix_sixToChar (b1 % 16 * 4 + b2 / 64) (by omega)]
  dsimp only
  rw [if_neg (sixToChar_ne_pad (b2 % 64) (by omega))]
  rw [charToSix_sixToChar (b2 % 64) (by omega)]
  dsimp only
  rw [show b0 / 4 * 4 + (b0 % 4 * 16 + b1 / 16) / 16 = b0 from by omega,
    show (b0 % 4 * 16 + b1 / 16) % 16 * 16 + (b1 % 16 * 4 + b2 / 64) / 4 = b1 from by omega,
    show (b1 % 16 * 4 + b2 / 64) % 4 * 64 + b2 % 64 = b2 from by omega]

/-- Base64 decoding is a left inverse of base64 encoding on byte
sequences. -/
theorem b64Decode_encode (bytes : List Nat) (h : ∀ b ∈ bytes, b < 256) :
    b64Decode (b64Encode bytes) = some bytes := by
  induction bytes using b64Encode.induct with
  | case1 => rfl
  | case2 b0 =>
    unfold b64Encode
    unfold b64Decode
    rw [b64DecodeChunk_one b0 (h b0 (by simp))]
    dsimp only
    rw [if_neg (by simp), if_pos rfl]
  | case3 b0 b1 =>
    unfold b64Encode
    unfold b64Decode
    rw [b64DecodeChunk_two b0 b1 (h b0 (by simp)) (h b1 (by simp))]
    dsimp only
    rw [if_neg (by simp), if_pos rfl]
  | case4 b0 b1 b2 rest ih =>
    unfold b64Encode
    unfold b64Decode
    rw [b64DecodeChunk_three b0 b1 b2 (h b0 (by simp)) (h b1 (by simp)) (h b2 (by simp))]
    dsimp only
    rw [if_pos (show ([b0, b1, b2] : List Nat).length = 3 from by simp)]
    rw [ih (fun x hx => h x (by simp [hx]))]
    rfl

/-- Every Lean character is a Unicode scalar value below `0x110000`. -/
theorem char_toNat_lt (c : Char) : c.toNat < 0x110000 := by
  show c.val.toNat < 0x110000
  rcases c.valid with h | ⟨h1, h2⟩ <;> omega

/-- Claim C7: the transport decoding is a left inverse of the transport
encoding `btoa(unescape(encodeURIComponent(text)))` on every Unicode string,
non-ASCII characters such as emoji included: decoding the encoded text
yields the text back exactly. -/
theorem decodeContent_encodeContent (s : String) :
    decodeContent (encodeContent s) = some s := by
  have hv : ∀ c ∈ s.data.map Char.toNat, c < 0x110000 := by
    intro c hc
    rcases List.mem_map.mp hc with ⟨ch, _, rfl⟩
    exact char_toNat_lt ch
  unfold encodeContent decodeContent
  rw [show (String.mk (b64Encode (utf8Encode (s.data.map Char.toNat)))).data
        = b64Encode (utf8Encode (s.data.map Char.toNat)) from rfl,
    b64Decode_encode _ (utf8Encode_bytes_lt _ hv)]
  dsimp only
  rw [utf8Decode_encode _ hv]
  dsimp only
  rw [show (s.data.map Char.toNat).map Char.ofNat = s.data from by
    simp [List.map_map, Function.comp_def, Char.ofNat_toNat]]

/-- Witness for C7 on a string containing an emoji and accented letters. -/
theorem decodeContent_encodeContent_witness :
    decodeContent (encodeContent "héllo 🎉 wörld") = some "héllo 🎉 wörld" :=
  decodeContent_encodeContent "héllo 🎉 wörld"
